import Mathlib

set_option maxRecDepth 100000
set_option maxHeartbeats 4000000

namespace EspWroom

/-! Shallow embedding of the WifiNINA SPI protocol engine of the esp32-wroom
repository (src/esp32-wroom-rp/src/spi.rs), together with the control-line
handshake it drives (src/esp32-wroom-rp/src/gpio.rs).  Machine integers
(`u8`, `u16`, `usize`) are modelled as `Nat` with explicit reductions
modulo `2^8` / `2^16` exactly where the Rust types force them.  The
full-duplex bus is modelled as a stream of incoming bytes indexed by the
number of one-byte transfers performed so far; a stream entry of `none`
models a bus transfer that reports an error.  Rust panics (for example the
`unwrap` of a failed transfer inside `get_byte`) are modelled by the
engine functions returning `none`; recoverable `Err` returns are modelled
with `Except`. -/

/-- Control byte sentinel `Start = 0xE0` (spi.rs, `enum ControlByte`). -/
def ControlByte.Start : Nat := 0xE0

/-- Control byte sentinel `End = 0xEE` (spi.rs, `enum ControlByte`). -/
def ControlByte.End : Nat := 0xEE

/-- Control byte sentinel `Reply = 1 << 7 = 0x80` (spi.rs, `enum ControlByte`). -/
def ControlByte.Reply : Nat := 0x80

/-- Control byte sentinel `Dummy = 0xFF` (spi.rs, `enum ControlByte`). -/
def ControlByte.Dummy : Nat := 0xFF

/-- Control byte sentinel `Error = 0xEF` (spi.rs, `enum ControlByte`). -/
def ControlByte.Error : Nat := 0xEF

/-- Modelled from the spec: `MAX_NINA_PARAMS` lives in protocol.rs which is not
part of the provided sources; the spec fixes it as "a small constant, typically 8". -/
def MAX_NINA_PARAMS : Nat := 8

/-- Modelled from the spec: `MAX_NINA_RESPONSE_LENGTH` lives in protocol.rs which
is not part of the provided sources; the spec fixes the response buffer capacity
`MAX_RESPONSE_LEN` as 5744 bytes. -/
def MAX_NINA_RESPONSE_LENGTH : Nat := 5744

/-- Protocol error kinds surfaced by the engine (protocol.rs `ProtocolError`,
as listed by the spec's error taxonomy and used throughout spi.rs). -/
inductive ProtocolError where
  | InvalidCommand
  | InvalidNumberOfParameters
  | NinaProtocolVersionMismatch
  | CommunicationTimeout
  | TooManyParameters
  | PayloadTooLarge
  deriving DecidableEq, Repr

/-- Top-level error type as seen by the engine functions in spi.rs (the
network-mapped variants are produced only by the facade commands, which the
claims do not touch). -/
inductive Error where
  | Protocol (e : ProtocolError)
  deriving DecidableEq, Repr

/-- Events on the control lines that the engine emits during a round trip:
`select` stands for `wait_for_esp_select()` (which ends with chip-select driven
low) and `deselect` for `esp_deselect()` (chip-select driven high). -/
inductive PinEvent where
  | select
  | deselect
  deriving DecidableEq, Repr

/-- State threaded through the engine: the incoming side of the full-duplex
bus as a stream of bytes (one entry per one-byte `transfer`; `none` models a
transfer that reports an error), the number of transfers performed so far,
and the log of control-line events. -/
structure SpiState where
  bus : Nat → Option Nat
  idx : Nat
  pins : List PinEvent

/-- Logs the `wait_for_esp_select()` acquisition of the control lines
(gpio.rs: wait ready, drive chip-select low, wait ack). -/
def wait_for_esp_select (s : SpiState) : SpiState :=
  { s with pins := s.pins ++ [PinEvent.select] }

/-- Logs `esp_deselect()` (gpio.rs: drive chip-select high). -/
def esp_deselect (s : SpiState) : SpiState :=
  { s with pins := s.pins ++ [PinEvent.deselect] }

/-- One-byte write on the bus: spi.rs performs `transfer(&mut [byte])` and
discards both the incoming byte and any transfer error with `.ok()`. -/
def write_byte (_b : Nat) (s : SpiState) : SpiState :=
  { s with idx := s.idx + 1 }

/-- spi.rs `get_byte`: a one-byte transfer clocking out `Dummy`; the
transfer result is unwrapped, so a failed transfer panics (`none`).  The
received byte has Rust type `u8`, so it is reduced modulo 256. -/
def get_byte (s : SpiState) : Option (Nat × SpiState) :=
  match s.bus s.idx with
  | none => none
  | some b => some (b % 256, { s with idx := s.idx + 1 })

/-- spi.rs `read_and_check_byte`: read one byte and compare it with the
expected byte. -/
def read_and_check_byte (check_byte : Nat) (s : SpiState) :
    Option (Bool × SpiState) :=
  match get_byte s with
  | none => none
  | some (b, s₁) => some (decide (b = check_byte), s₁)

/-- spi.rs `combine_2_bytes`: `byte0` is the LSB and `byte1` the MSB;
computes `(word1 << 8) | (word0 & 0xff)` on the `u16` widenings. -/
def combine_2_bytes (byte0 byte1 : Nat) : Nat :=
  (byte1 <<< 8) ||| (byte0 &&& 0xff)

/-- spi.rs `split_word`: `[(word & 0xff00) >> 8, word & 0xff]`. -/
def split_word (word : Nat) : List Nat :=
  [(word &&& 0xff00) >>> 8, word &&& 0xff]

/-- spi.rs `wait_for_byte` retry bound (`let retry_limit: u16 = 1000u16`). -/
def retry_limit : Nat := 1000

/-- The bounded read loop of spi.rs `wait_for_byte`, with the remaining
iteration count as fuel: read a byte; on `ControlByte::Error` consume two more
bytes and fail with `NinaProtocolVersionMismatch`; on the awaited byte succeed;
otherwise keep reading; on exhaustion fail with `CommunicationTimeout`. -/
def wait_for_byte_go (wait_byte : Nat) :
    Nat → SpiState → Option (Except Error Bool × SpiState)
  | 0, s => some (Except.error (Error.Protocol ProtocolError.CommunicationTimeout), s)
  | fuel+1, s =>
    match get_byte s with
    | none => none
    | some (byte_read, s₁) =>
      if byte_read = ControlByte.Error then
        match get_byte s₁ with
        | none => none
        | some (_, s₂) =>
          match get_byte s₂ with
          | none => none
          | some (_, s₃) =>
            some (Except.error
              (Error.Protocol ProtocolError.NinaProtocolVersionMismatch), s₃)
      else if byte_read = wait_byte then
        some (Except.ok true, s₁)
      else
        wait_for_byte_go wait_byte fuel s₁

/-- spi.rs `wait_for_byte`. -/
def wait_for_byte (wait_byte : Nat) (s : SpiState) :
    Option (Except Error Bool × SpiState) :=
  wait_for_byte_go wait_byte retry_limit s

/-- spi.rs `check_start_cmd`: wait for the `Start` sentinel. -/
def check_start_cmd (s : SpiState) : Option (Except Error Bool × SpiState) :=
  wait_for_byte ControlByte.Start s

/-- spi.rs `check_response_ready`: wait for `Start`, then require the reply
command byte `cmd | Reply`, then require the expected parameter count. -/
def check_response_ready (cmd num_params : Nat) (s : SpiState) :
    Option (Except Error Unit × SpiState) :=
  match check_start_cmd s with
  | none => none
  | some (Except.error e, s₁) => some (Except.error e, s₁)
  | some (Except.ok _, s₁) =>
    match read_and_check_byte (cmd ||| ControlByte.Reply) s₁ with
    | none => none
    | some (ok₁, s₂) =>
      if !ok₁ then
        some (Except.error (Error.Protocol ProtocolError.InvalidCommand), s₂)
      else
        match read_and_check_byte num_params s₂ with
        | none => none
        | some (ok₂, s₃) =>
          if !ok₂ then
            some (Except.error
              (Error.Protocol ProtocolError.InvalidNumberOfParameters), s₃)
          else some (Except.ok (), s₃)

/-- The read loop of spi.rs `read_response_bytes`: fill the buffer at indices
`i, i+1, …` with the next `k` bytes from the bus. -/
def read_response_go :
    Nat → Nat → (Nat → Nat) → SpiState → Option ((Nat → Nat) × SpiState)
  | _, 0, buf, s => some (buf, s)
  | i, k+1, buf, s =>
    match get_byte s with
    | none => none
    | some (b, s₁) =>
      read_response_go (i+1) k (fun j => if j = i then b else buf j) s₁

/-- spi.rs `read_response_bytes`: `buf.iter_mut().take(n)` walks at most the
buffer's 5744 entries, so only `min n MAX_NINA_RESPONSE_LENGTH` bytes are read
(an over-long length is merely logged and truncated). -/
def read_response_bytes (buf : Nat → Nat) (response_length_in_bytes : Nat)
    (s : SpiState) : Option ((Nat → Nat) × SpiState) :=
  read_response_go 0 (min response_length_in_bytes MAX_NINA_RESPONSE_LENGTH) buf s

/-- spi.rs `read_response`: read an 8-bit body length, reject it when above
`MAX_NINA_PARAMS`, read that many payload bytes into a zeroed buffer, then
read (and merely check, discarding the result) the `End` byte. -/
def read_response (s : SpiState) : Option (Except Error (Nat → Nat) × SpiState) :=
  match get_byte s with
  | none => none
  | some (response_length_in_bytes, s₁) =>
    if response_length_in_bytes > MAX_NINA_PARAMS then
      some (Except.error (Error.Protocol ProtocolError.TooManyParameters), s₁)
    else
      match (if response_length_in_bytes > 0 then
          read_response_bytes (fun _ => 0) response_length_in_bytes s₁
        else some ((fun _ => 0), s₁)) with
      | none => none
      | some (buf, s₂) =>
        match read_and_check_byte ControlByte.End s₂ with
        | none => none
        | some (_, s₃) => some (Except.ok buf, s₃)

/-- spi.rs `read_response16`: read two bytes, combine them with the first read
as MSB (`combine_2_bytes(bytes.1, bytes.0)`), read that many payload bytes,
then read (and merely check) the `End` byte; returns the declared length
together with the buffer. -/
def read_response16 (s : SpiState) :
    Option (Except Error (Nat × (Nat → Nat)) × SpiState) :=
  match get_byte s with
  | none => none
  | some (b₀, s₁) =>
    match get_byte s₁ with
    | none => none
    | some (b₁, s₂) =>
      match read_response_bytes (fun _ => 0) (combine_2_bytes b₁ b₀) s₂ with
      | none => none
      | some (buf, s₃) =>
        match read_and_check_byte ControlByte.End s₃ with
        | none => none
        | some (_, s₄) =>
          some (Except.ok (combine_2_bytes b₁ b₀, buf), s₄)

/-- spi.rs `receive`: acquire the control lines, run `check_response_ready`
whose result is bound to the discarded `_result` (its `map_err` closure calls
`esp_deselect()` and logs), then unconditionally run `read_response` and
deselect before returning its result. -/
def receive (cmd expected_num_params : Nat) (s : SpiState) :
    Option (Except Error (Nat → Nat) × SpiState) :=
  match check_response_ready cmd expected_num_params (wait_for_esp_select s) with
  | none => none
  | some (chk, s₁) =>
    match read_response (match chk with
      | Except.error _ => esp_deselect s₁
      | Except.ok _ => s₁) with
    | none => none
    | some (result, s₃) => some (result, esp_deselect s₃)

/-- spi.rs `receive_data16`: acquire the control lines, propagate
`check_response_ready` and `read_response16` failures with `?` (returning
without `esp_deselect`), and deselect only on the success path. -/
def receive_data16 (cmd expected_num_params : Nat) (s : SpiState) :
    Option (Except Error (Nat × (Nat → Nat)) × SpiState) :=
  match check_response_ready cmd expected_num_params (wait_for_esp_select s) with
  | none => none
  | some (Except.error e, s₁) => some (Except.error e, s₁)
  | some (Except.ok _, s₁) =>
    match read_response16 s₁ with
    | none => none
    | some (Except.error e, s₂) => some (Except.error e, s₂)
    | some (Except.ok result, s₂) => some (Except.ok result, esp_deselect s₂)

/-- Modelled from the spec: a successfully constructed NINA parameter
(protocol.rs is not among the provided sources).  `length_size` is the width
W of the length prefix (1 for byte, word and small-array parameters, 2 for
large-array parameters), `data` the payload bytes; construction rejects
payloads longer than `2^(8·W) − 1` with `PayloadTooLarge`, so a constructed
parameter satisfies that bound. -/
structure NinaParam where
  length_size : Nat
  data : List Nat
  width_valid : length_size = 1 ∨ length_size = 2
  length_valid : data.length ≤ 2 ^ (8 * length_size) - 1

/-- Modelled from the spec: `length_as_bytes()` encodes the payload length in
`length_size` bytes, big-endian (most significant first). -/
def length_as_bytes (p : NinaParam) : List Nat :=
  if p.length_size = 2 then [p.data.length / 256, p.data.length % 256]
  else [p.data.length % 256]

/-- spi.rs `send_param_length`: emit the `length_size` length-prefix bytes. -/
def send_param_length (p : NinaParam) (s : SpiState) : SpiState :=
  (length_as_bytes p).foldl (fun t b => write_byte b t) s

/-- spi.rs `send_param`: emit the length prefix, then the payload bytes. -/
def send_param (p : NinaParam) (s : SpiState) : SpiState :=
  p.data.foldl (fun t b => write_byte b t) (send_param_length p s)

/-- spi.rs `send_end_cmd`: emit the `End` byte. -/
def send_end_cmd (s : SpiState) : SpiState :=
  write_byte ControlByte.End s

/-- spi.rs `send_cmd`: emit `[Start, cmd & !Reply, num_params]` and, when the
parameter count is zero, the `End` byte as well (`!0x80u8 = 0x7f`). -/
def send_cmd (cmd num_params : Nat) (s : SpiState) : SpiState :=
  let s₃ := write_byte num_params
    (write_byte (cmd &&& 0x7f) (write_byte ControlByte.Start s))
  if num_params = 0 then send_end_cmd s₃ else s₃

/-- The discard-read loop of spi.rs `pad_to_multiple_of_4`, by remaining
iteration count. -/
def pad_go : Nat → SpiState → Option SpiState
  | 0, s => some s
  | k+1, s =>
    match get_byte s with
    | none => none
    | some (_, s₁) => pad_go k s₁

/-- spi.rs `pad_to_multiple_of_4`: reads and discards one byte while
`command_size % 4 ≠ 0`, incrementing `command_size` each time; the loop hence
runs exactly `(4 - command_size % 4) % 4` times. -/
def pad_to_multiple_of_4 (command_size : Nat) (s : SpiState) : Option SpiState :=
  pad_go ((4 - command_size % 4) % 4) s

/-- spi.rs `execute`: acquire the control lines, send the command header,
then (when parameters are present) each parameter, the `End` byte, and the
alignment padding for `command_size = 4 + Σ length_size + Σ length`, and
deselect.  The `u16` accumulation of the parameter lengths wraps modulo
2^16, which is taken once at the end (step-wise wrapping sums agree with a
single final reduction). -/
def execute (cmd : Nat) (params : List NinaParam) (s : SpiState) :
    Option (Except Error Unit × SpiState) :=
  let number_of_params := params.length % 256
  let s₁ := send_cmd cmd number_of_params (wait_for_esp_select s)
  if params.isEmpty then
    some (Except.ok (), esp_deselect s₁)
  else
    let s₃ := send_end_cmd (params.foldl (fun t p => send_param p t) s₁)
    let total_params_length := params.foldl (fun a p => a + p.data.length) 0
    let total_params_length_size := params.foldl (fun a p => a + p.length_size) 0
    let command_size := (4 + total_params_length_size + total_params_length) % 65536
    match pad_to_multiple_of_4 command_size s₃ with
    | none => none
    | some s₄ => some (Except.ok (), esp_deselect s₄)

/-- Modelled from the spec: the `NinaCommand::AvailDataTcp` command byte, drawn
from the peer firmware's closed command enumeration (the enumeration lives in
protocol.rs, which is not among the provided sources; the concrete value does
not affect any claim). -/
def AvailDataTcpCmd : Nat := 0x2B

/-- Modelled from the spec: the `NinaCommand::GetDataBufTcp` command byte (see
`AvailDataTcpCmd`). -/
def GetDataBufTcpCmd : Nat := 0x25

/-- Modelled from the spec: `NinaByteParam::from_bytes(&[b])`, a width-1
parameter holding one byte. -/
def byte_param (b : Nat) : NinaParam :=
  ⟨1, [b % 256], Or.inl rfl, by norm_num⟩

/-- Modelled from the spec: `NinaLargeArrayParam::from_bytes(data)`, a width-2
parameter; construction succeeds for payloads of at most 65535 bytes. -/
def large_array_param (data : List Nat) (h : data.length ≤ 65535) : NinaParam :=
  ⟨2, data, Or.inr rfl, by
    have h2 : (2 : Nat) ^ (8 * 2) - 1 = 65535 := by norm_num
    omega⟩

/-- spi.rs `avail_data_tcp`: one `execute`/`receive` round trip for
`AvailDataTcp` with the socket as single byte parameter; the two response
bytes are combined with `combine_2_bytes(result[0], result[1])` and the
value 5744 is clamped to 5743. -/
def avail_data_tcp (socket : Nat) (s : SpiState) :
    Option (Except Error Nat × SpiState) :=
  match execute AvailDataTcpCmd [byte_param socket] s with
  | none => none
  | some (Except.error e, s₁) => some (Except.error e, s₁)
  | some (Except.ok _, s₁) =>
    match receive AvailDataTcpCmd 1 s₁ with
    | none => none
    | some (Except.error e, s₂) => some (Except.error e, s₂)
    | some (Except.ok buf, s₂) =>
      let available_data_length := combine_2_bytes (buf 0) (buf 1)
      some (Except.ok
        (if available_data_length = 5744 then 5743 else available_data_length),
        s₂)

/-- spi.rs `get_data_buf_tcp`: `execute` for `GetDataBufTcp` with the socket
and the requested length (`split_word(available_length as u16)`) as two
large-array parameters, followed by `receive_data16`. -/
def get_data_buf_tcp (socket available_length : Nat) (s : SpiState) :
    Option (Except Error (Nat × (Nat → Nat)) × SpiState) :=
  match execute GetDataBufTcpCmd
      [large_array_param [socket % 256] (by norm_num),
        large_array_param (split_word (available_length % 65536))
          (by norm_num [split_word])] s with
  | none => none
  | some (Except.error e, s₁) => some (Except.error e, s₁)
  | some (Except.ok _, s₁) => receive_data16 GetDataBufTcpCmd 1 s₁

/-- The chunk-copying step of spi.rs `receive_data`: copy
`response_buffer[0 .. current_length − 1]` (exclusive upper bound, so
`current_length − 1` bytes) into the result buffer starting at the write
index, then advance the write index by one more, i.e. by `current_length` in
total.  When `current_length = 0` the loop bound `current_length - 1`
underflows `usize` and the copy loop indexes out of bounds; when the writes
would pass the 5744-byte result buffer the indexing also panics.  Both
panics are modelled as `none`. -/
def copy_chunk (response_buffer : Nat → Nat) (current_length : Nat)
    (result_buffer : Nat → Nat) (result_buffer_idx : Nat) :
    Option ((Nat → Nat) × Nat) :=
  if current_length = 0 then none
  else if 2 ≤ current_length ∧ 5745 < result_buffer_idx + current_length then none
  else some
    (fun j =>
      if result_buffer_idx ≤ j ∧ j < result_buffer_idx + (current_length - 1)
        then response_buffer (j - result_buffer_idx) else result_buffer j,
      result_buffer_idx + current_length)

/-- The chunk loop of spi.rs `receive_data`: while
`available_data_length > data_length && data_length < MAX_NINA_RESPONSE_LENGTH`,
fetch a chunk with `get_data_buf_tcp` and append it with `copy_chunk`,
advancing `data_length` by the chunk length.  The unbounded `while` takes
fuel; exhausted fuel (`none`) models non-termination. -/
def receive_data_loop (socket available_data_length : Nat) :
    Nat → (Nat → Nat) → Nat → Nat → SpiState →
      Option (Except Error (Nat → Nat) × SpiState)
  | fuel, result_buffer, result_buffer_idx, data_length, s =>
    if available_data_length > data_length ∧
        data_length < MAX_NINA_RESPONSE_LENGTH then
      match fuel with
      | 0 => none
      | fuel+1 =>
        match get_data_buf_tcp socket available_data_length s with
        | none => none
        | some (Except.error e, s₁) => some (Except.error e, s₁)
        | some (Except.ok (current_length, response_buffer), s₁) =>
          match copy_chunk response_buffer current_length
              result_buffer result_buffer_idx with
          | none => none
          | some (buf₁, idx₁) =>
            receive_data_loop socket available_data_length fuel
              buf₁ idx₁ (data_length + current_length) s₁
    else some (Except.ok result_buffer, s)

/-- The polling loop of spi.rs `receive_data`: sleep 50 ms (no observable
effect in this model) and query `avail_data_tcp` until it reports a non-zero
available length.  The unbounded `loop` takes fuel. -/
def receive_data_poll (socket : Nat) :
    Nat → SpiState → Option (Except Error Nat × SpiState)
  | 0, _ => none
  | fuel+1, s =>
    match avail_data_tcp socket s with
    | none => none
    | some (Except.error e, s₁) => some (Except.error e, s₁)
    | some (Except.ok n, s₁) =>
      if n > 0 then some (Except.ok n, s₁)
      else receive_data_poll socket fuel s₁

/-- spi.rs `receive_data`: poll until data is available, then drain it
chunk by chunk into a zeroed 5744-byte buffer. -/
def receive_data (socket poll_fuel loop_fuel : Nat) (s : SpiState) :
    Option (Except Error (Nat → Nat) × SpiState) :=
  match receive_data_poll socket poll_fuel s with
  | none => none
  | some (Except.error e, s₁) => some (Except.error e, s₁)
  | some (Except.ok available_data_length, s₁) =>
    receive_data_loop socket available_data_length loop_fuel
      (fun _ => 0) 0 0 s₁

/-- The reply stream for the claim C2 evidence: `Start`, then a reply command
byte 0x00 that does not match `0x37 | 0x80 = 0xB7`, then a zero body length,
then `End`. -/
def C2_bus : Nat → Option Nat :=
  fun i => some (if i = 0 then 0xE0 else if i = 3 then 0xEE else 0)

/-- The reply stream for the claim C4 counterexample: `Start`, the reply
command byte `0x25 | 0x80 = 0xA5`, one parameter, then a declared wide length
of `0x1671 = 5745` — one more than the 5744-byte response buffer — followed by
an arbitrary body. -/
def C4_stream : Nat → Nat :=
  fun i => if i = 0 then 0xE0 else if i = 1 then 0xA5
    else if i = 2 then 1 else if i = 3 then 0x16 else if i = 4 then 0x71
    else if i = 5749 then 0xEE else 0

/-- The C4 counterexample stream as a total (never-failing) bus. -/
def C4_bus : Nat → Option Nat :=
  fun i => some (C4_stream i)

/-- The reply stream for the claim C4 witness: a well-formed wide-length reply
declaring a zero-length body. -/
def C4_wbus : Nat → Option Nat :=
  fun i => some (if i = 0 then 0xE0 else if i = 1 then 0xA5
    else if i = 2 then 1 else if i = 5 then 0xEE else 0)

/-- The reply stream for the claim C6 witness: the request exchange for
`AvailDataTcp` with a one-byte parameter occupies transfers 0–7 (six writes
plus two padding reads); the reply then carries `Start`,
`0x2B | 0x80 = 0xAB`, one parameter, a two-byte body `[0x10, 0x16]` and
`End`. -/
def C6_bus : Nat → Option Nat :=
  fun i => some (if i = 8 then 0xE0 else if i = 9 then 0xAB
    else if i = 10 then 1 else if i = 11 then 2 else if i = 12 then 0x10
    else if i = 13 then 0x16 else if i = 14 then 0xEE else 0)

/-- The response body the C6 witness reply delivers: byte 0 is 0x10 (LSB) and
byte 1 is 0x16 (MSB), so the available length is 0x1610 = 5648. -/
def C6_buf : Nat → Nat :=
  fun j => if j = 1 then 0x16 else if j = 0 then 0x10 else 0

/-- The reply stream for the claim C7 witness: the request exchange for
`GetDataBufTcp` with two large-array parameters occupies transfers 0–11
(eleven writes plus one padding read); the reply then carries `Start`,
`0x25 | 0x80 = 0xA5`, one parameter, the wide length `[0x00, 0x02]` (MSB
first), the two body bytes 7 and 9, and `End`. -/
def C7_bus : Nat → Option Nat :=
  fun i => some (if i = 12 then 0xE0 else if i = 13 then 0xA5
    else if i = 14 then 1 else if i = 16 then 2 else if i = 17 then 7
    else if i = 18 then 9 else if i = 19 then 0xEE else 0)

/-- The two-byte chunk the C7 witness reply delivers. -/
def C7_chunk_buf : Nat → Nat :=
  fun j => if j = 1 then 9 else if j = 0 then 7 else 0

/-- The engine state after the C7 witness `get_data_buf_tcp` round trip. -/
def C7_state1 : SpiState :=
  ⟨C7_bus, 20, [PinEvent.select, PinEvent.deselect,
    PinEvent.select, PinEvent.deselect]⟩

/-- The reply stream for the claim C9 witness: as for C7 but the declared
wide length is zero, so `get_data_buf_tcp` reports a zero-length chunk. -/
def C9_bus : Nat → Option Nat :=
  fun i => some (if i = 12 then 0xE0 else if i = 13 then 0xA5
    else if i = 14 then 1 else if i = 17 then 0xEE else 0)

/-- Projection of a `receive_data16` outcome onto the returned length:
`some n` exactly when the call returned success with length `n`. -/
def received_length :
    Option (Except Error (Nat × (Nat → Nat)) × SpiState) → Option Nat
  | some (Except.ok (n, _), _) => some n
  | _ => none

/-! Arithmetic helper lemmas about the byte-packing primitives. -/

theorem and_255_eq_mod (x : Nat) : x &&& 255 = x % 256 := by
  have h : (255 : Nat) = 2 ^ 8 - 1 := by norm_num
  have h2 : (256 : Nat) = 2 ^ 8 := by norm_num
  rw [h, h2, Nat.and_pow_two_sub_one_eq_mod]

theorem lor_shiftLeft_eq_add (y x : Nat) (hx : x < 256) :
    (y <<< 8) ||| x = y * 256 + x := by
  apply Nat.eq_of_testBit_eq
  intro j
  have h256 : (256 : Nat) = 2 ^ 8 := by norm_num
  have hx8 : x < 2 ^ 8 := by rw [← h256]; exact hx
  have hmul : y * 256 + x = 2 ^ 8 * y + x := by rw [h256, Nat.mul_comm]
  rw [hmul, Nat.testBit_lor, Nat.testBit_shiftLeft,
    Nat.testBit_mul_pow_two_add y hx8 j]
  by_cases hj : j < 8
  · have : ¬ (8 ≤ j) := by omega
    simp [hj, this]
  · have h8j : 8 ≤ j := by omega
    have hxf : x.testBit j = false :=
      Nat.testBit_eq_false_of_lt
        (lt_of_lt_of_le hx8 (Nat.pow_le_pow_right (by norm_num) h8j))
    simp [hj, h8j, hxf]

theorem and_ff00_shiftRight (w : Nat) (hw : w < 65536) :
    (w &&& 0xff00) >>> 8 = w >>> 8 := by
  apply Nat.eq_of_testBit_eq
  intro j
  have hff00 : (0xff00 : Nat) = (2 ^ 8 - 1) <<< 8 := by decide
  rw [Nat.testBit_shiftRight, Nat.testBit_shiftRight, Nat.testBit_land,
    hff00, Nat.testBit_shiftLeft, Nat.testBit_two_pow_sub_one]
  by_cases hj : j < 8
  · have h1 : 8 ≤ 8 + j := by omega
    have h2 : 8 + j - 8 = j := by omega
    simp [h1, h2, hj]
  · have hwf : w.testBit (8 + j) = false := by
      apply Nat.testBit_eq_false_of_lt
      have : (65536 : Nat) = 2 ^ 16 := by norm_num
      calc w < 2 ^ 16 := by omega
        _ ≤ 2 ^ (8 + j) := Nat.pow_le_pow_right (by norm_num) (by omega)
    simp [hwf]

theorem combine_2_bytes_eq (x y : Nat) (hx : x < 256) :
    combine_2_bytes x y = y * 256 + x := by
  rw [combine_2_bytes]
  have hand : x &&& 0xff = x := by
    rw [show (0xff : Nat) = 255 from rfl, and_255_eq_mod, Nat.mod_eq_of_lt hx]
  rw [hand, lor_shiftLeft_eq_add y x hx]

theorem combine_2_bytes_lt (x y : Nat) (hx : x < 256) (hy : y < 256) :
    combine_2_bytes x y < 65536 := by
  rw [combine_2_bytes_eq x y hx]; omega

theorem split_word_eq (w : Nat) (hw : w < 65536) :
    split_word w = [w / 256, w % 256] := by
  rw [split_word, and_ff00_shiftRight w hw, and_255_eq_mod]
  have h3 : w >>> 8 = w / 256 := by
    rw [Nat.shiftRight_eq_div_pow]
  rw [h3]

/-- Claim C8: `combine_2_bytes(x, y) = (y << 8) | x` for all bytes `x, y`;
`split_word(w) = [w >> 8, w & 0xFF]` for every 16-bit `w`; and feeding the
low and high bytes of `split_word(w)` back through `combine_2_bytes`
recovers `w`. -/
theorem C8_combine_split_bytes :
    (∀ x y : Nat, x < 256 → y < 256 →
        combine_2_bytes x y = ((y <<< 8) ||| x)) ∧
    (∀ w : Nat, w < 65536 →
        split_word w = [w >>> 8, w &&& 0xff]) ∧
    (∀ w : Nat, w < 65536 →
        combine_2_bytes ((split_word w).getD 1 0) ((split_word w).getD 0 0)
          = w) := by
  refine ⟨?_, ?_, ?_⟩
  · intro x y hx _hy
    rw [combine_2_bytes_eq x y hx, lor_shiftLeft_eq_add y x hx]
  · intro w hw
    rw [split_word_eq w hw]
    have h1 : w >>> 8 = w / 256 := by
      rw [Nat.shiftRight_eq_div_pow]
    have h2 : w &&& 0xff = w % 256 := and_255_eq_mod w
    rw [h1, h2]
  · intro w hw
    rw [split_word_eq w hw]
    have hlo : w % 256 < 256 := Nat.mod_lt _ (by norm_num)
    have hg1 : ([w / 256, w % 256] : List Nat).getD 1 0 = w % 256 := rfl
    have hg0 : ([w / 256, w % 256] : List Nat).getD 0 0 = w / 256 := rfl
    rw [hg1, hg0, combine_2_bytes_eq (w % 256) (w / 256) hlo]
    omega

/-- Claim C1 (code evidence): an error round trip of `receive_data16` that
acquired the control lines returns without `esp_deselect`.  On a bus whose
every byte is the `Error` sentinel 0xEF, `receive_data16` fails with
`NinaProtocolVersionMismatch` and its control-line log is the bare `select`:
chip-select is left low, contradicting the claim that `esp_deselect` runs on
every error path. -/
theorem C1_receive_data16_error_path_skips_deselect :
    receive_data16 0x37 1 ⟨fun _ => some 0xEF, 0, []⟩
      = some (Except.error
          (Error.Protocol ProtocolError.NinaProtocolVersionMismatch),
          ⟨fun _ => some 0xEF, 3, [PinEvent.select]⟩) := by
  rfl

/-- Claim C2 (code evidence): `receive` binds the failing
`check_response_ready` result to the discarded `_result`, so with a reply
command byte that does not match `cmd | REPLY_FLAG` it does not return
`InvalidCommand`: it goes on to decode a response body and returns it as a
success. -/
theorem C2_receive_swallows_invalid_command :
    receive 0x37 1 ⟨C2_bus, 0, []⟩
      = some (Except.ok (fun _ => 0),
          ⟨C2_bus, 4,
            [PinEvent.select, PinEvent.deselect, PinEvent.deselect]⟩) := by
  rfl

/-- Claim C10: a bus transfer that reports an error makes the byte-level
readers (`get_byte`, `read_and_check_byte`, `wait_for_byte`) and the receive
path panic (modelled as `none`) instead of surfacing any recoverable
error value. -/
theorem C10_transfer_error_panics (cmd expected_num_params : Nat)
    (s : SpiState) (h : s.bus s.idx = none) :
    get_byte s = none ∧
    (∀ c, read_and_check_byte c s = none) ∧
    (∀ w, wait_for_byte w s = none) ∧
    receive cmd expected_num_params s = none := by
  have hg : get_byte s = none := by
    simp [get_byte, h]
  have hw : ∀ w, wait_for_byte w s = none := by
    intro w
    show wait_for_byte_go w 1000 s = none
    rw [show (1000 : Nat) = 999 + 1 from rfl]
    simp [wait_for_byte_go, hg]
  refine ⟨hg, ?_, hw, ?_⟩
  · intro c
    simp [read_and_check_byte, hg]
  · have hsel : get_byte (wait_for_esp_select s) = none := by
      simp [get_byte, wait_for_esp_select, h]
    have hwsel : wait_for_byte ControlByte.Start (wait_for_esp_select s) = none := by
      show wait_for_byte_go ControlByte.Start 1000 (wait_for_esp_select s) = none
      rw [show (1000 : Nat) = 999 + 1 from rfl]
      simp [wait_for_byte_go, hsel]
    simp [receive, check_response_ready, check_start_cmd, hwsel]

/-- Witness for C10 on the everywhere-failing bus. -/
theorem C10_transfer_error_panics_witness :
    get_byte ⟨fun _ => none, 0, []⟩ = none ∧
    read_and_check_byte 0xEE ⟨fun _ => none, 0, []⟩ = none ∧
    wait_for_byte 0xE0 ⟨fun _ => none, 0, []⟩ = none ∧
    receive 0x37 1 ⟨fun _ => none, 0, []⟩ = none := by
  obtain ⟨h1, h2, h3, h4⟩ :=
    C10_transfer_error_panics 0x37 1 ⟨fun _ => none, 0, []⟩ rfl
  exact ⟨h1, h2 0xEE, h3 0xE0, h4⟩

/-- One-step unfolding of the `wait_for_byte` loop on a total bus: a step is
an `Error`-sentinel test, an awaited-byte test, and otherwise a retry at the
next bus position. -/
theorem wait_go_step (w : Nat) (f : Nat → Nat) (p : List PinEvent)
    (fuel a : Nat) :
    wait_for_byte_go w (fuel + 1) ⟨fun i => some (f i), a, p⟩
      = if f a % 256 = ControlByte.Error then
          some (Except.error
            (Error.Protocol ProtocolError.NinaProtocolVersionMismatch),
            ⟨fun i => some (f i), a + 1 + 1 + 1, p⟩)
        else if f a % 256 = w then
          some (Except.ok true, ⟨fun i => some (f i), a + 1, p⟩)
        else
          wait_for_byte_go w fuel ⟨fun i => some (f i), a + 1, p⟩ := rfl

/-- Timeout case of the `wait_for_byte` loop: when no read within the fuel
bound yields the `Error` sentinel or the awaited byte, the loop consumes
exactly `fuel` bytes and fails with `CommunicationTimeout`. -/
theorem wait_go_timeout (w : Nat) (f : Nat → Nat) (p : List PinEvent) :
    ∀ fuel a,
      (∀ j, j < fuel → f (a + j) % 256 ≠ ControlByte.Error ∧ f (a + j) % 256 ≠ w) →
      wait_for_byte_go w fuel ⟨fun i => some (f i), a, p⟩
        = some (Except.error (Error.Protocol ProtocolError.CommunicationTimeout),
            ⟨fun i => some (f i), a + fuel, p⟩) := by
  intro fuel
  induction fuel with
  | zero => intro a _; simp [wait_for_byte_go]
  | succ fuel ih =>
    intro a h
    have h0 := h 0 (by omega)
    rw [Nat.add_zero] at h0
    rw [wait_go_step, if_neg h0.1, if_neg h0.2]
    rw [ih (a + 1) (fun j hj => by
      have := h (j + 1) (by omega)
      rwa [show a + (j + 1) = a + 1 + j from by omega] at this)]
    rw [show a + 1 + fuel = a + (fuel + 1) from by omega]

/-- First-hit case of the `wait_for_byte` loop: reads before index `k` match
neither the `Error` sentinel nor the awaited byte; if read `k` is the `Error`
sentinel the loop consumes two further bytes and fails with
`NinaProtocolVersionMismatch`, and if it is the awaited byte (the sentinel
check having failed first) the loop succeeds. -/
theorem wait_go_hit (w : Nat) (f : Nat → Nat) (p : List PinEvent) :
    ∀ k fuel a, k < fuel →
      (∀ j, j < k → f (a + j) % 256 ≠ ControlByte.Error ∧ f (a + j) % 256 ≠ w) →
      (f (a + k) % 256 = ControlByte.Error →
        wait_for_byte_go w fuel ⟨fun i => some (f i), a, p⟩
          = some (Except.error
              (Error.Protocol ProtocolError.NinaProtocolVersionMismatch),
              ⟨fun i => some (f i), a + k + 3, p⟩)) ∧
      (f (a + k) % 256 ≠ ControlByte.Error → f (a + k) % 256 = w →
        wait_for_byte_go w fuel ⟨fun i => some (f i), a, p⟩
          = some (Except.ok true, ⟨fun i => some (f i), a + k + 1, p⟩)) := by
  intro k
  induction k with
  | zero =>
    intro fuel a hk _
    obtain ⟨fuel, rfl⟩ : ∃ m, fuel = m + 1 := ⟨fuel - 1, by omega⟩
    rw [Nat.add_zero]
    constructor
    · intro herr
      rw [wait_go_step, if_pos herr, show a + 1 + 1 + 1 = a + 3 from by omega]
    · intro herr hw
      rw [wait_go_step, if_neg herr, if_pos hw]
  | succ k ih =>
    intro fuel a hk h
    obtain ⟨fuel, rfl⟩ : ∃ m, fuel = m + 1 := ⟨fuel - 1, by omega⟩
    have h0 := h 0 (by omega)
    rw [Nat.add_zero] at h0
    have hshift : ∀ j, j < k →
        f (a + 1 + j) % 256 ≠ ControlByte.Error ∧ f (a + 1 + j) % 256 ≠ w := by
      intro j hj
      have := h (j + 1) (by omega)
      rwa [show a + (j + 1) = a + 1 + j from by omega] at this
    have hstep : wait_for_byte_go w (fuel + 1) ⟨fun i => some (f i), a, p⟩
        = wait_for_byte_go w fuel ⟨fun i => some (f i), a + 1, p⟩ := by
      rw [wait_go_step, if_neg h0.1, if_neg h0.2]
    have hrec := ih fuel (a + 1) (by omega) hshift
    rw [show a + (k + 1) = a + 1 + k from by omega]
    constructor
    · intro herr
      rw [hstep, hrec.1 herr]
    · intro herr hww
      rw [hstep, hrec.2 herr hww]

/-- Claim C5 (amended): for every awaited byte `w` and every byte stream, the
`wait_for_byte` loop performs at most `RETRY_LIMIT = 1000` loop reads; the
`ERROR` (0xEF) check precedes the awaited-byte check, so the first read that
is the sentinel ends the wait after exactly two further byte consumptions
with `NinaProtocolVersionMismatch`; the first read equal to `w` (when not the
sentinel) returns success immediately; and when the limit is exhausted with
neither seen, the call fails with `CommunicationTimeout` after exactly 1000
reads. -/
theorem C5_wait_for_byte_characterization (w : Nat) (f : Nat → Nat)
    (p : List PinEvent) :
    (∀ k, k < 1000 →
      (∀ j, j < k → f j % 256 ≠ 0xEF ∧ f j % 256 ≠ w) →
      f k % 256 = 0xEF →
      wait_for_byte w ⟨fun i => some (f i), 0, p⟩
        = some (Except.error
            (Error.Protocol ProtocolError.NinaProtocolVersionMismatch),
            ⟨fun i => some (f i), k + 3, p⟩)) ∧
    (∀ k, k < 1000 →
      (∀ j, j < k → f j % 256 ≠ 0xEF ∧ f j % 256 ≠ w) →
      f k % 256 ≠ 0xEF → f k % 256 = w →
      wait_for_byte w ⟨fun i => some (f i), 0, p⟩
        = some (Except.ok true, ⟨fun i => some (f i), k + 1, p⟩)) ∧
    ((∀ j, j < 1000 → f j % 256 ≠ 0xEF ∧ f j % 256 ≠ w) →
      wait_for_byte w ⟨fun i => some (f i), 0, p⟩
        = some (Except.error
            (Error.Protocol ProtocolError.CommunicationTimeout),
            ⟨fun i => some (f i), 1000, p⟩)) := by
  have hunfold : wait_for_byte w ⟨fun i => some (f i), 0, p⟩
      = wait_for_byte_go w 1000 ⟨fun i => some (f i), 0, p⟩ := rfl
  refine ⟨?_, ?_, ?_⟩
  · intro k hk hbefore herr
    have := (wait_go_hit w f p k 1000 0 hk
      (fun j hj => by simpa using hbefore j hj)).1 (by simpa using herr)
    rw [hunfold, this, Nat.zero_add]
  · intro k hk hbefore herr hww
    have := (wait_go_hit w f p k 1000 0 hk
      (fun j hj => by simpa using hbefore j hj)).2
      (by simpa using herr) (by simpa using hww)
    rw [hunfold, this, Nat.zero_add]
  · intro hall
    have := wait_go_timeout w f p 1000 0
      (fun j hj => by simpa using hall j hj)
    rw [hunfold, this, Nat.zero_add]

/-- Witness for C5: the success clause at a stream whose first byte is the
awaited `Start`, the sentinel clause at a stream whose first byte is 0xEF,
and the timeout clause on an all-zero stream awaiting byte 1. -/
theorem C5_wait_for_byte_characterization_witness :
    wait_for_byte 0xE0 ⟨fun i => some ((fun _ => 0xE0) i), 0, []⟩
      = some (Except.ok true, ⟨fun i => some ((fun _ => 0xE0) i), 1, []⟩) ∧
    wait_for_byte 0xE0 ⟨fun i => some ((fun _ => 0xEF) i), 0, []⟩
      = some (Except.error
          (Error.Protocol ProtocolError.NinaProtocolVersionMismatch),
          ⟨fun i => some ((fun _ => 0xEF) i), 3, []⟩) ∧
    wait_for_byte 1 ⟨fun i => some ((fun _ => 0) i), 0, []⟩
      = some (Except.error
          (Error.Protocol ProtocolError.CommunicationTimeout),
          ⟨fun i => some ((fun _ => 0) i), 1000, []⟩) := by
  refine ⟨?_, ?_, ?_⟩
  · exact (C5_wait_for_byte_characterization 0xE0 (fun _ => 0xE0) []).2.1 0
      (by norm_num) (by intro j hj; omega) (by norm_num) (by norm_num)
  · exact (C5_wait_for_byte_characterization 0xE0 (fun _ => 0xEF) []).1 0
      (by norm_num) (by intro j hj; omega) (by norm_num)
  · exact (C5_wait_for_byte_characterization 1 (fun _ => 0) []).2.2
      (by intro j hj; norm_num)

/-- Claim C5 (counterexample): awaiting the byte 0xEF itself, the first read
equals the awaited byte yet `wait_for_byte` does not return success: the
sentinel branch fires first and returns `NinaProtocolVersionMismatch`. -/
theorem C5_cex_sentinel_precedes_success :
    wait_for_byte 0xEF ⟨fun _ => some 0xEF, 0, []⟩
      = some (Except.error
          (Error.Protocol ProtocolError.NinaProtocolVersionMismatch),
          ⟨fun _ => some 0xEF, 3, []⟩) := by
  rfl

/-- Witness for C8 at concrete bytes and a concrete word. -/
theorem C8_combine_split_bytes_witness :
    combine_2_bytes 0x10 0x16 = ((0x16 <<< 8) ||| 0x10) ∧
    split_word 5648 = [5648 >>> 8, 5648 &&& 0xff] ∧
    combine_2_bytes ((split_word 5648).getD 1 0) ((split_word 5648).getD 0 0)
      = 5648 := by
  refine ⟨C8_combine_split_bytes.1 0x10 0x16 (by norm_num) (by norm_num),
    C8_combine_split_bytes.2.1 5648 (by norm_num),
    C8_combine_split_bytes.2.2 5648 (by norm_num)⟩

/-! Transfer-counting lemmas for the request-framing claim. -/

theorem write_byte_idx (b : Nat) (s : SpiState) :
    (write_byte b s).idx = s.idx + 1 := rfl

theorem foldl_write_byte_idx (l : List Nat) :
    ∀ s : SpiState,
      (l.foldl (fun t b => write_byte b t) s).idx = s.idx + l.length := by
  induction l with
  | nil => intro s; simp
  | cons b l ih =>
    intro s
    rw [List.foldl_cons, ih, write_byte_idx, List.length_cons]
    omega

theorem length_as_bytes_length (p : NinaParam) :
    (length_as_bytes p).length = p.length_size := by
  rcases p.width_valid with h | h <;> simp [length_as_bytes, h]

theorem send_param_idx (p : NinaParam) (s : SpiState) :
    (send_param p s).idx = s.idx + (p.length_size + p.data.length) := by
  rw [send_param, foldl_write_byte_idx, send_param_length,
    foldl_write_byte_idx, length_as_bytes_length]
  omega

theorem foldl_send_param_idx (params : List NinaParam) :
    ∀ s : SpiState,
      (params.foldl (fun t p => send_param p t) s).idx
        = s.idx + (params.map fun p => p.length_size + p.data.length).sum := by
  induction params with
  | nil => intro s; simp
  | cons p ps ih =>
    intro s
    rw [List.foldl_cons, ih, send_param_idx, List.map_cons, List.sum_cons]
    omega

theorem foldl_add_eq_sum (g : NinaParam → Nat) (l : List NinaParam) :
    ∀ n : Nat, l.foldl (fun a p => a + g p) n = n + (l.map g).sum := by
  induction l with
  | nil => intro n; simp
  | cons p ps ih =>
    intro n
    rw [List.foldl_cons, ih, List.map_cons, List.sum_cons]
    omega

theorem sum_map_add_split (l : List NinaParam) :
    (l.map fun p => p.length_size + p.data.length).sum
      = (l.map NinaParam.length_size).sum
        + (l.map fun p => p.data.length).sum := by
  induction l with
  | nil => simp
  | cons p ps ih => simp only [List.map_cons, List.sum_cons, ih]; omega

theorem send_cmd_idx (cmd n : Nat) (s : SpiState) :
    (send_cmd cmd n s).idx = s.idx + (if n = 0 then 4 else 3) := by
  by_cases h : n = 0
  · simp [send_cmd, send_end_cmd, write_byte, h]
  · simp [send_cmd, send_end_cmd, write_byte, h]

theorem get_byte_some (s : SpiState) (b : Nat) (s₁ : SpiState)
    (h : get_byte s = some (b, s₁)) :
    b < 256 ∧ s₁.idx = s.idx + 1 ∧ s₁.bus = s.bus ∧ s₁.pins = s.pins := by
  rw [get_byte] at h
  cases hb : s.bus s.idx with
  | none => rw [hb] at h; exact absurd h (by simp)
  | some v =>
    rw [hb] at h
    simp only [Option.some.injEq, Prod.mk.injEq] at h
    obtain ⟨hv, hs⟩ := h
    subst hv
    constructor
    · exact Nat.mod_lt _ (by norm_num)
    · rw [← hs]
      exact ⟨rfl, rfl, rfl⟩

theorem pad_go_idx :
    ∀ (k : Nat) (s s' : SpiState), pad_go k s = some s' → s'.idx = s.idx + k := by
  intro k
  induction k with
  | zero =>
    intro s s' h
    simp only [pad_go, Option.some.injEq] at h
    rw [← h]
    omega
  | succ k ih =>
    intro s s' h
    unfold pad_go at h
    cases hg : get_byte s with
    | none => rw [hg] at h; exact absurd h (by simp)
    | some v =>
      rw [hg] at h
      have hv := get_byte_some s v.1 v.2 hg
      have := ih v.2 s' h
      omega

/-- Claim C3: every request frame `execute` emits exchanges a number of bytes
on the bus that is a multiple of four — header, length prefixes, payloads and
`End` byte, plus the discarded padding reads.  The parameter list is bounded
by the peer's `MAX_NINA_PARAMS`, as every constructible operation is. -/
theorem C3_request_frame_mod4 (cmd : Nat) (params : List NinaParam)
    (s : SpiState) (r : Except Error Unit) (s' : SpiState)
    (hmax : params.length ≤ MAX_NINA_PARAMS)
    (hrun : execute cmd params s = some (r, s')) :
    (s'.idx - s.idx) % 4 = 0 := by
  have hmax' : params.length < 256 := by
    have : MAX_NINA_PARAMS = 8 := rfl
    omega
  have hmod : params.length % 256 = params.length := Nat.mod_eq_of_lt hmax'
  simp only [execute] at hrun
  by_cases hempty : params.isEmpty = true
  · rw [if_pos hempty] at hrun
    simp only [Option.some.injEq, Prod.mk.injEq] at hrun
    have hnil : params = [] := List.isEmpty_iff.mp hempty
    have hidx : s'.idx = s.idx + 4 := by
      rw [← hrun.2]
      show (send_cmd cmd (params.length % 256) (wait_for_esp_select s)).idx = _
      rw [send_cmd_idx]
      simp [hnil, wait_for_esp_select]
    omega
  · rw [if_neg hempty] at hrun
    have hlen0 : params.length ≠ 0 := by
      intro h0
      exact hempty (by simpa [List.isEmpty_iff] using List.eq_nil_of_length_eq_zero h0)
    set sb := send_end_cmd (params.foldl (fun t p => send_param p t)
      (send_cmd cmd (params.length % 256) (wait_for_esp_select s))) with hsb
    set cs := (4 + params.foldl (fun a p => a + p.length_size) 0
      + params.foldl (fun a p => a + p.data.length) 0) % 65536 with hcs
    cases hpad : pad_to_multiple_of_4 cs sb with
    | none => rw [hpad] at hrun; exact absurd hrun (by simp)
    | some s₄ =>
      rw [hpad] at hrun
      simp only [Option.some.injEq, Prod.mk.injEq] at hrun
      have hs' : s' = esp_deselect s₄ := hrun.2.symm
      have hpadidx : s₄.idx = sb.idx + (4 - cs % 4) % 4 :=
        pad_go_idx _ sb s₄ hpad
      have hsbidx : sb.idx = s.idx + 3
          + (params.map fun p => p.length_size + p.data.length).sum + 1 := by
        rw [hsb]
        show (params.foldl (fun t p => send_param p t)
          (send_cmd cmd (params.length % 256) (wait_for_esp_select s))).idx + 1 = _
        rw [foldl_send_param_idx, send_cmd_idx]
        rw [if_neg (by rw [hmod]; exact hlen0)]
        simp [wait_for_esp_select]
      have hcsval : cs % 4
          = (4 + (params.map fun p => p.length_size + p.data.length).sum) % 4 := by
        rw [hcs, Nat.mod_mod_of_dvd _ (by norm_num),
          foldl_add_eq_sum NinaParam.length_size params 0,
          foldl_add_eq_sum (fun p => p.data.length) params 0,
          sum_map_add_split]
        omega
      have hfinal : s'.idx = s.idx + 4
          + (params.map fun p => p.length_size + p.data.length).sum
          + (4 - cs % 4) % 4 := by
        rw [hs']
        show s₄.idx = _
        omega
      omega

/-- Witness for C3 on a one-byte-parameter operation over an all-zero bus. -/
theorem C3_request_frame_mod4_witness :
    execute 0x37 [byte_param 0] ⟨fun _ => some 0, 0, []⟩
      = some (Except.ok (),
          ⟨fun _ => some 0, 8, [PinEvent.select, PinEvent.deselect]⟩) ∧
    ((8 : Nat) - 0) % 4 = 0 := by
  constructor
  · rfl
  · exact C3_request_frame_mod4 0x37 [byte_param 0] ⟨fun _ => some 0, 0, []⟩
      (Except.ok ())
      ⟨fun _ => some 0, 8, [PinEvent.select, PinEvent.deselect]⟩
      (by simp [MAX_NINA_PARAMS]) rfl

/-! Inversion and bound lemmas for the wide-length receive path. -/

theorem read_response16_ok_bound (s : SpiState) (n : Nat) (buf : Nat → Nat)
    (s' : SpiState) (h : read_response16 s = some (Except.ok (n, buf), s')) :
    n < 65536 := by
  unfold read_response16 at h
  split at h
  · exact absurd h (by simp)
  next b₀ s₁ hg0 =>
    split at h
    · exact absurd h (by simp)
    next b₁ s₂ hg1 =>
      split at h
      · exact absurd h (by simp)
      next bufr s₃ hrb =>
        split at h
        · exact absurd h (by simp)
        next c s₄ hrc =>
          simp only [Option.some.injEq, Prod.mk.injEq, Except.ok.injEq] at h
          have hb0 := (get_byte_some s b₀ s₁ hg0).1
          have hb1 := (get_byte_some s₁ b₁ s₂ hg1).1
          have hlt := combine_2_bytes_lt b₁ b₀ hb1 hb0
          omega

/-- Claim C4 (amended): every successful `receive_data16` round trip returns a
length equal to the 16-bit length the peer declared, hence at most 65535; the
declared length is not clamped to the 5744-byte response buffer capacity (only
the buffer fill is truncated). -/
theorem C4_receive_data16_length_le_declared_max (cmd e n : Nat)
    (buf : Nat → Nat) (s s' : SpiState)
    (h : receive_data16 cmd e s = some (Except.ok (n, buf), s')) :
    n ≤ 65535 := by
  unfold receive_data16 at h
  split at h
  · exact absurd h (by simp)
  · exact absurd h (by simp)
  next u s₁ hchk =>
    split at h
    · exact absurd h (by simp)
    · exact absurd h (by simp)
    next res s₂ hr =>
      simp only [Option.some.injEq, Prod.mk.injEq, Except.ok.injEq] at h
      have hb := read_response16_ok_bound s₁ res.1 res.2 s₂ (by
        rw [hr])
      have hn : res.1 = n := by
        rw [h.1]
      omega

/-- Witness for C4 (amended) on a reply declaring a zero-length body. -/
theorem C4_receive_data16_length_witness :
    receive_data16 GetDataBufTcpCmd 1 ⟨C4_wbus, 0, []⟩
      = some (Except.ok (0, fun _ => 0),
          ⟨C4_wbus, 6, [PinEvent.select, PinEvent.deselect]⟩) ∧
    (0 : Nat) ≤ 65535 := by
  constructor
  · rfl
  · exact C4_receive_data16_length_le_declared_max GetDataBufTcpCmd 1 0
      (fun _ => 0) ⟨C4_wbus, 0, []⟩
      ⟨C4_wbus, 6, [PinEvent.select, PinEvent.deselect]⟩ rfl

/-- On a total bus the body-reading loop always succeeds and consumes exactly
as many transfers as it reads bytes. -/
theorem read_response_go_total (f : Nat → Nat) (p : List PinEvent) :
    ∀ (k i : Nat) (buf : Nat → Nat) (a : Nat),
      ∃ buf', read_response_go i k buf ⟨fun j => some (f j), a, p⟩
        = some (buf', ⟨fun j => some (f j), a + k, p⟩) := by
  intro k
  induction k with
  | zero => intro i buf a; exact ⟨buf, rfl⟩
  | succ k ih =>
    intro i buf a
    obtain ⟨buf', hbuf⟩ := ih (i + 1)
      (fun j => if j = i then f a % 256 else buf j) (a + 1)
    refine ⟨buf', ?_⟩
    show read_response_go (i + 1) k
      (fun j => if j = i then f a % 256 else buf j)
      ⟨fun j => some (f j), a + 1, p⟩ = _
    rw [hbuf, show a + 1 + k = a + (k + 1) from by omega]

/-- On a total bus `read_response16` always succeeds, returning the declared
16-bit length assembled from the first two reads (first byte is the MSB) and
consuming `min` of the declared length and the buffer capacity body bytes. -/
theorem read_response16_total (f : Nat → Nat) (p : List PinEvent) (a : Nat) :
    ∃ bufr, read_response16 ⟨fun j => some (f j), a, p⟩
      = some (Except.ok
          (combine_2_bytes (f (a + 1) % 256) (f a % 256), bufr),
          ⟨fun j => some (f j),
            a + 1 + 1
              + min (combine_2_bytes (f (a + 1) % 256) (f a % 256))
                  MAX_NINA_RESPONSE_LENGTH + 1, p⟩) := by
  obtain ⟨bufr, hgo⟩ := read_response_go_total f p
    (min (combine_2_bytes (f (a + 1) % 256) (f a % 256))
      MAX_NINA_RESPONSE_LENGTH) 0 (fun _ => 0) (a + 1 + 1)
  refine ⟨bufr, ?_⟩
  show (match read_response_go 0
      (min (combine_2_bytes (f (a + 1) % 256) (f a % 256))
        MAX_NINA_RESPONSE_LENGTH) (fun _ => 0)
      ⟨fun j => some (f j), a + 1 + 1, p⟩ with
    | none => none
    | some (buf, s₃) =>
      match read_and_check_byte ControlByte.End s₃ with
      | none => none
      | some (_, s₄) =>
        some (Except.ok
          (combine_2_bytes (f (a + 1) % 256) (f a % 256), buf), s₄)) = _
  rw [hgo]
  rfl

/-- The header of the C4 counterexample reply parses successfully. -/
theorem C4_check_ready_eq :
    check_response_ready GetDataBufTcpCmd 1 (wait_for_esp_select ⟨C4_bus, 0, []⟩)
      = some (Except.ok (),
          ⟨fun j => some (C4_stream j), 3, [PinEvent.select]⟩) := rfl

/-- Success-path unfolding of `receive_data16` from equations for its two
stages: a passing `check_response_ready` and a successful `read_response16`
give a success with `esp_deselect` logged. -/
theorem receive_data16_ok_unfold (cmd e : Nat) (s : SpiState) (u : Unit)
    (s₁ : SpiState) (res : Nat × (Nat → Nat)) (s₂ : SpiState)
    (hchk : check_response_ready cmd e (wait_for_esp_select s)
      = some (Except.ok u, s₁))
    (hrr : read_response16 s₁ = some (Except.ok res, s₂)) :
    receive_data16 cmd e s = some (Except.ok res, esp_deselect s₂) := by
  unfold receive_data16
  rw [hchk]
  show (match read_response16 s₁ with
    | none => none
    | some (Except.error e, s₂) => some (Except.error e, s₂)
    | some (Except.ok result, s₂) =>
      some (Except.ok result, esp_deselect s₂)) = _
  rw [hrr]

/-- Claim C4 (counterexample): a successful `receive_data16` call whose
returned length, 5745, exceeds `MAX_NINA_RESPONSE_LENGTH = 5744`: the peer
declares 0x1671 = 5745 and the call succeeds returning that length
unchanged. -/
theorem C4_cex_declared_length_exceeds_buffer :
    received_length (receive_data16 GetDataBufTcpCmd 1 ⟨C4_bus, 0, []⟩)
      = some 5745 ∧ MAX_NINA_RESPONSE_LENGTH < 5745 := by
  obtain ⟨bufr, hrr⟩ := read_response16_total C4_stream [PinEvent.select] 3
  have hN : combine_2_bytes (C4_stream (3 + 1) % 256) (C4_stream 3 % 256)
      = 5745 := by decide
  rw [hN] at hrr
  constructor
  · rw [receive_data16_ok_unfold GetDataBufTcpCmd 1 ⟨C4_bus, 0, []⟩ ()
      ⟨fun j => some (C4_stream j), 3, [PinEvent.select]⟩ (5745, bufr) _
      C4_check_ready_eq hrr]
    rfl
  · norm_num [MAX_NINA_RESPONSE_LENGTH]

/-! Buffer-range lemmas and the `avail_data_tcp` claim. -/

theorem read_response_go_bound :
    ∀ (k i : Nat) (buf : Nat → Nat) (s : SpiState) (buf' : Nat → Nat)
      (s' : SpiState), (∀ j, buf j < 256) →
      read_response_go i k buf s = some (buf', s') → ∀ j, buf' j < 256 := by
  intro k
  induction k with
  | zero =>
    intro i buf s buf' s' hb h
    simp only [read_response_go, Option.some.injEq, Prod.mk.injEq] at h
    rw [← h.1]
    exact hb
  | succ k ih =>
    intro i buf s buf' s' hb h
    unfold read_response_go at h
    split at h
    · exact absurd h (by simp)
    next b t hg =>
      refine ih (i + 1) _ t buf' s' ?_ h
      intro j
      by_cases hj : j = i
      · simp only [hj, if_pos rfl]
        exact (get_byte_some s b t hg).1
      · simp only [if_neg hj]
        exact hb j

theorem read_response_ok_bound (s : SpiState) (buf : Nat → Nat)
    (s' : SpiState) (h : read_response s = some (Except.ok buf, s')) :
    ∀ j, buf j < 256 := by
  unfold read_response at h
  split at h
  · exact absurd h (by simp)
  next n s₁ hg =>
    split at h
    · exact absurd h (by simp)
    · split at h
      · exact absurd h (by simp)
      next bufr s₂ hrb =>
        split at h
        · exact absurd h (by simp)
        next c s₃ hrc =>
          simp only [Option.some.injEq, Prod.mk.injEq, Except.ok.injEq] at h
          rw [← h.1]
          by_cases hn : n > 0
          · rw [if_pos hn] at hrb
            exact read_response_go_bound _ 0 (fun _ => 0) s₁ bufr s₂
              (fun _ => by norm_num) hrb
          · rw [if_neg hn] at hrb
            simp only [Option.some.injEq, Prod.mk.injEq] at hrb
            rw [← hrb.1]
            intro j
            norm_num

theorem receive_ok_bound (cmd e : Nat) (s : SpiState) (buf : Nat → Nat)
    (s' : SpiState) (h : receive cmd e s = some (Except.ok buf, s')) :
    ∀ j, buf j < 256 := by
  unfold receive at h
  split at h
  · exact absurd h (by simp)
  next chk s₁ hchk =>
    split at h
    · exact absurd h (by simp)
    next result s₃ hr =>
      simp only [Option.some.injEq, Prod.mk.injEq] at h
      rw [h.1] at hr
      exact read_response_ok_bound _ buf s₃ hr

/-- Success-path unfolding of `avail_data_tcp` from equations for its
`execute` and `receive` stages. -/
theorem avail_data_tcp_ok_unfold (socket : Nat) (s s₁ s₂ : SpiState)
    (buf : Nat → Nat)
    (hex : execute AvailDataTcpCmd [byte_param socket] s
      = some (Except.ok (), s₁))
    (hrecv : receive AvailDataTcpCmd 1 s₁ = some (Except.ok buf, s₂)) :
    avail_data_tcp socket s
      = some (Except.ok
          (if combine_2_bytes (buf 0) (buf 1) = 5744 then 5743
           else combine_2_bytes (buf 0) (buf 1)), s₂) := by
  unfold avail_data_tcp
  rw [hex]
  show (match receive AvailDataTcpCmd 1 s₁ with
    | none => none
    | some (Except.error e, s₂) => some (Except.error e, s₂)
    | some (Except.ok buf, s₂) =>
      some (Except.ok
        (if combine_2_bytes (buf 0) (buf 1) = 5744 then 5743
         else combine_2_bytes (buf 0) (buf 1)), s₂)) = _
  rw [hrecv]

/-- Claim C6: `avail_data_tcp` reassembles the two response bytes
little-endian — the available length is `(byte1 << 8) | byte0` — and the
value 5744 is returned as 5743, every other value unchanged. -/
theorem C6_avail_data_little_endian_clamp (socket n : Nat)
    (s s₁ s₂ s₃ : SpiState) (buf : Nat → Nat)
    (hex : execute AvailDataTcpCmd [byte_param socket] s
      = some (Except.ok (), s₁))
    (hrecv : receive AvailDataTcpCmd 1 s₁ = some (Except.ok buf, s₂))
    (hrun : avail_data_tcp socket s = some (Except.ok n, s₃)) :
    n = if ((buf 1) <<< 8) ||| (buf 0) = 5744 then 5743
        else ((buf 1) <<< 8) ||| (buf 0) := by
  have hbuf := receive_ok_bound AvailDataTcpCmd 1 s₁ buf s₂ hrecv
  have hcomb : combine_2_bytes (buf 0) (buf 1) = ((buf 1) <<< 8) ||| (buf 0) := by
    rw [combine_2_bytes]
    rw [show (0xff : Nat) = 255 from rfl, and_255_eq_mod,
      Nat.mod_eq_of_lt (hbuf 0)]
  have := (avail_data_tcp_ok_unfold socket s s₁ s₂ buf hex hrecv).symm.trans hrun
  simp only [Option.some.injEq, Prod.mk.injEq, Except.ok.injEq] at this
  rw [← this.1, hcomb]

/-- Witness for C6: a full round trip on the C6 stream reporting the
little-endian length 0x1610 = 5648, which is below the 5744 clamp. -/
theorem C6_avail_data_little_endian_clamp_witness :
    execute AvailDataTcpCmd [byte_param 0] ⟨C6_bus, 0, []⟩
      = some (Except.ok (),
          ⟨C6_bus, 8, [PinEvent.select, PinEvent.deselect]⟩) ∧
    receive AvailDataTcpCmd 1 ⟨C6_bus, 8, [PinEvent.select, PinEvent.deselect]⟩
      = some (Except.ok C6_buf,
          ⟨C6_bus, 15, [PinEvent.select, PinEvent.deselect,
            PinEvent.select, PinEvent.deselect]⟩) ∧
    avail_data_tcp 0 ⟨C6_bus, 0, []⟩
      = some (Except.ok 5648,
          ⟨C6_bus, 15, [PinEvent.select, PinEvent.deselect,
            PinEvent.select, PinEvent.deselect]⟩) ∧
    5648 = if ((C6_buf 1) <<< 8) ||| (C6_buf 0) = 5744 then 5743
        else ((C6_buf 1) <<< 8) ||| (C6_buf 0) := by
  have hex : execute AvailDataTcpCmd [byte_param 0] ⟨C6_bus, 0, []⟩
      = some (Except.ok (),
          ⟨C6_bus, 8, [PinEvent.select, PinEvent.deselect]⟩) := rfl
  have hrecv : receive AvailDataTcpCmd 1
      ⟨C6_bus, 8, [PinEvent.select, PinEvent.deselect]⟩
      = some (Except.ok C6_buf,
          ⟨C6_bus, 15, [PinEvent.select, PinEvent.deselect,
            PinEvent.select, PinEvent.deselect]⟩) := rfl
  have hrun : avail_data_tcp 0 ⟨C6_bus, 0, []⟩
      = some (Except.ok 5648,
          ⟨C6_bus, 15, [PinEvent.select, PinEvent.deselect,
            PinEvent.select, PinEvent.deselect]⟩) :=
    (avail_data_tcp_ok_unfold 0 _ _ _ C6_buf hex hrecv).trans (by rfl)
  exact ⟨hex, hrecv, hrun,
    C6_avail_data_little_endian_clamp 0 5648 _ _ _ _ C6_buf hex hrecv hrun⟩

/-! The TCP receive-loop claims. -/

theorem copy_chunk_some (cbuf : Nat → Nat) (clen : Nat) (buf : Nat → Nat)
    (idx : Nat) (hpos : 1 ≤ clen) (hroom : idx + clen ≤ 5745) :
    copy_chunk cbuf clen buf idx
      = some (fun j =>
          if idx ≤ j ∧ j < idx + (clen - 1) then cbuf (j - idx) else buf j,
          idx + clen) := by
  unfold copy_chunk
  rw [if_neg (by omega), if_neg (by rintro ⟨h1, h2⟩; omega)]

/-- Claim C7: one iteration of the `receive_data` chunk loop under its guard
`data_length < available ∧ data_length < MAX_NINA_RESPONSE_LENGTH`: of a chunk
of reported length `clen`, exactly the bytes at indices `0 … clen − 2` are
copied to the result buffer at the write index, the write index and the
consumed count advance by `clen` (leaving the byte at offset `clen − 1`
untouched — a one-byte gap), and the loop continues with the new counts. -/
theorem C7_receive_data_chunk_copy (socket avail fuel : Nat)
    (buf : Nat → Nat) (idx dl : Nat) (s : SpiState)
    (clen : Nat) (cbuf : Nat → Nat) (s₁ : SpiState)
    (hguard : dl < avail ∧ dl < MAX_NINA_RESPONSE_LENGTH)
    (hchunk : get_data_buf_tcp socket avail s
      = some (Except.ok (clen, cbuf), s₁))
    (hpos : 1 ≤ clen) (hroom : idx + clen ≤ 5745) :
    ∃ buf',
      receive_data_loop socket avail (fuel + 1) buf idx dl s
        = receive_data_loop socket avail fuel buf' (idx + clen) (dl + clen) s₁
      ∧ (∀ i, i < clen - 1 → buf' (idx + i) = cbuf i)
      ∧ (∀ j, j < idx ∨ idx + (clen - 1) ≤ j → buf' j = buf j) := by
  refine ⟨fun j =>
    if idx ≤ j ∧ j < idx + (clen - 1) then cbuf (j - idx) else buf j,
    ?_, ?_, ?_⟩
  · show (if avail > dl ∧ dl < MAX_NINA_RESPONSE_LENGTH then
        match get_data_buf_tcp socket avail s with
        | none => none
        | some (Except.error e, s₁) => some (Except.error e, s₁)
        | some (Except.ok (current_length, response_buffer), s₁) =>
          match copy_chunk response_buffer current_length buf idx with
          | none => none
          | some (buf₁, idx₁) =>
            receive_data_loop socket avail fuel buf₁ idx₁
              (dl + current_length) s₁
      else some (Except.ok buf, s)) = _
    rw [if_pos hguard, hchunk]
    show (match copy_chunk cbuf clen buf idx with
      | none => none
      | some (buf₁, idx₁) =>
        receive_data_loop socket avail fuel buf₁ idx₁ (dl + clen) s₁) = _
    rw [copy_chunk_some cbuf clen buf idx hpos hroom]
  · intro i hi
    show (if idx ≤ idx + i ∧ idx + i < idx + (clen - 1)
        then cbuf (idx + i - idx) else buf (idx + i)) = cbuf i
    rw [if_pos ⟨by omega, by omega⟩, Nat.add_sub_cancel_left]
  · intro j hj
    show (if idx ≤ j ∧ j < idx + (clen - 1)
        then cbuf (j - idx) else buf j) = buf j
    rw [if_neg (by rintro ⟨h1, h2⟩; omega)]

/-- Witness for C7: one loop iteration over the C7 stream, whose chunk has
reported length 2, copies one byte and advances the write index by two. -/
theorem C7_receive_data_chunk_copy_witness :
    ((0 : Nat) < 2 ∧ (0 : Nat) < MAX_NINA_RESPONSE_LENGTH) ∧
    get_data_buf_tcp 0 2 ⟨C7_bus, 0, []⟩
      = some (Except.ok (2, C7_chunk_buf), C7_state1) ∧
    (∃ buf',
      receive_data_loop 0 2 (4 + 1) (fun _ => 0) 0 0 ⟨C7_bus, 0, []⟩
        = receive_data_loop 0 2 4 buf' (0 + 2) (0 + 2) C7_state1
      ∧ (∀ i, i < 2 - 1 → buf' (0 + i) = C7_chunk_buf i)
      ∧ (∀ j, j < 0 ∨ 0 + (2 - 1) ≤ j → buf' j = (fun _ => (0 : Nat)) j)) := by
  refine ⟨⟨by norm_num, by norm_num [MAX_NINA_RESPONSE_LENGTH]⟩, rfl, ?_⟩
  exact C7_receive_data_chunk_copy 0 2 4 (fun _ => 0) 0 0 ⟨C7_bus, 0, []⟩
    2 C7_chunk_buf C7_state1
    ⟨by norm_num, by norm_num [MAX_NINA_RESPONSE_LENGTH]⟩ rfl
    (by norm_num) (by norm_num)

/-- Claim C9: when the guard of the `receive_data` chunk loop holds and
`get_data_buf_tcp` reports a zero-length chunk, the copy loop's upper bound
`current_length - 1` underflows and the indexing panics: the loop does not
return normally (modelled as `none`) instead of treating the chunk as a
no-op. -/
theorem C9_zero_length_chunk_panics (socket avail fuel : Nat)
    (buf : Nat → Nat) (idx dl : Nat) (s : SpiState)
    (cbuf : Nat → Nat) (s₁ : SpiState)
    (hguard : dl < avail ∧ dl < MAX_NINA_RESPONSE_LENGTH)
    (hchunk : get_data_buf_tcp socket avail s
      = some (Except.ok (0, cbuf), s₁)) :
    receive_data_loop socket avail fuel buf idx dl s = none := by
  cases fuel with
  | zero =>
    show (if avail > dl ∧ dl < MAX_NINA_RESPONSE_LENGTH then none
      else some (Except.ok buf, s) :
        Option (Except Error (Nat → Nat) × SpiState)) = none
    rw [if_pos hguard]
  | succ fuel =>
    show (if avail > dl ∧ dl < MAX_NINA_RESPONSE_LENGTH then
        match get_data_buf_tcp socket avail s with
        | none => none
        | some (Except.error e, s₁) => some (Except.error e, s₁)
        | some (Except.ok (current_length, response_buffer), s₁) =>
          match copy_chunk response_buffer current_length buf idx with
          | none => none
          | some (buf₁, idx₁) =>
            receive_data_loop socket avail fuel buf₁ idx₁
              (dl + current_length) s₁
      else some (Except.ok buf, s)) = none
    rw [if_pos hguard, hchunk]
    rfl

/-- Witness for C9: the C9 stream's `get_data_buf_tcp` reports length zero
and the loop iteration panics. -/
theorem C9_zero_length_chunk_panics_witness :
    get_data_buf_tcp 0 5 ⟨C9_bus, 0, []⟩
      = some (Except.ok (0, fun _ => 0),
          ⟨C9_bus, 18, [PinEvent.select, PinEvent.deselect,
            PinEvent.select, PinEvent.deselect]⟩) ∧
    receive_data_loop 0 5 3 (fun _ => 0) 0 0 ⟨C9_bus, 0, []⟩ = none := by
  refine ⟨rfl, ?_⟩
  exact C9_zero_length_chunk_panics 0 5 3 (fun _ => 0) 0 0 ⟨C9_bus, 0, []⟩
    (fun _ => 0)
    ⟨C9_bus, 18, [PinEvent.select, PinEvent.deselect,
      PinEvent.select, PinEvent.deselect]⟩
    ⟨by norm_num, by norm_num [MAX_NINA_RESPONSE_LENGTH]⟩ rfl

end EspWroom
